import Mathlib

/-!
Verification development for the Excel multi-sheet data viewer
(`src/filter.py`).  The script's core logic is embedded shallowly:

* a `Table` is a pandas dataframe: a list of column names and a list of
  rows, each row a list of cells; a cell is `Option Value` with `none`
  standing for null/NaN;
* `filtered_df` embeds the filter-application loop (filter.py lines
  149-157): for each `(filter_col, selected_values)` entry of the filter
  dict, if the selection is non-empty and the column is present, rows are
  kept by an `isin` membership test (include mode) or its negation
  (exclude mode); pandas `isin` never matches a null cell, which
  `cellIsIn` mirrors;
* `unique_values` embeds the candidate-value collection loop (lines
  123-132): the union over the selected sheets of each sheet's distinct
  non-null values in the filter column, sorted ascending before display;
* `loadSheets` embeds the sheet-loading loop (lines 46-53) over the
  fixed list of eight expected sheet names, recording one warning per
  missing sheet; `noValidSheetsError` is the "No valid sheets found"
  condition (line 188);
* `Session`/`step` embed the streamlit rerun model: the dataframes store
  is parsed only when absent from session state (line 46), and the
  Reset All button deletes it (lines 256-258);
* `displayLoop` embeds the per-sheet display loop (lines 145-157),
  threading the store explicitly so that the absence of mutation is a
  provable frame condition.
-/

namespace ExcelViewer

/-- Scalar cell values; the app filters string-valued columns. -/
abbrev Value := String

/-- A dataframe cell: `none` is null/NaN (pandas `dropna`/`isin` semantics). -/
abbrev Cell := Option Value

/-- A dataframe: ordered column names and ordered rows of cells. -/
structure Table where
  cols : List String
  rows : List (List Cell)
deriving DecidableEq, Repr

/-- `df[c]` for one row: the cell in column `c`, null when the column is
absent or the row has no entry at its index. -/
def getCell (cols : List String) (r : List Cell) (c : String) : Cell :=
  match cols.indexOf? c with
  | none => none
  | some i => (r.get? i).bind id

/-- Pandas `Series.isin(values)` on a single cell: a null cell matches
nothing (the selectable values are drawn from `dropna()`, so no null is
ever in `vs`). -/
def cellIsIn (cell : Cell) (vs : List Value) : Bool :=
  match cell with
  | none => false
  | some v => vs.contains v

/-- One iteration of the filter loop (filter.py lines 150-157):
`if selected_values and filter_col in filtered_df.columns:` then keep the
rows passing (include) or failing (exclude) the `isin` test. -/
def applyFilter (isExclude : Bool) (t : Table) (c : String) (vs : List Value) :
    Table :=
  if vs ≠ [] ∧ c ∈ t.cols then
    { t with rows := t.rows.filter (fun r =>
        if isExclude then !(cellIsIn (getCell t.cols r c) vs)
        else cellIsIn (getCell t.cols r c) vs) }
  else t

/-- The filter spec: the `filters` dict in insertion order, mapping each
filter column to its selected values. -/
abbrev FilterSpec := List (String × List Value)

/-- `filtered_df` (filter.py lines 149-157): fold the per-column filter
over the spec, starting from the full table. -/
def filtered_df (isExclude : Bool) (t : Table) (spec : FilterSpec) : Table :=
  spec.foldl (fun acc p => applyFilter isExclude acc p.1 p.2) t

/-- The cell in column `c` holds a (non-null) member of `vs`. -/
def memVal (cell : Cell) (vs : List Value) : Prop :=
  ∃ v, cell = some v ∧ v ∈ vs

instance (cell : Cell) (vs : List Value) : Decidable (memVal cell vs) := by
  unfold memVal
  cases cell with
  | none => exact .isFalse (by simp)
  | some v => exact decidable_of_iff (v ∈ vs) (by simp)

theorem cellIsIn_iff (cell : Cell) (vs : List Value) :
    cellIsIn cell vs = true ↔ memVal cell vs := by
  cases cell with
  | none => simp [cellIsIn, memVal]
  | some v => simp [cellIsIn, memVal]

/-- The per-column survival condition: vacuous unless the column's filter
is active (non-empty selection and column present), in which case the row's
cell must be (include) or must not be (exclude) a member of the selection. -/
def rowPass (isExclude : Bool) (cols : List String) (c : String)
    (vs : List Value) (r : List Cell) : Prop :=
  vs ≠ [] → c ∈ cols →
    (if isExclude then ¬ memVal (getCell cols r c) vs
     else memVal (getCell cols r c) vs)

theorem applyFilter_cols (isExclude : Bool) (t : Table) (c : String)
    (vs : List Value) : (applyFilter isExclude t c vs).cols = t.cols := by
  unfold applyFilter
  split <;> rfl

theorem mem_applyFilter (isExclude : Bool) (t : Table) (c : String)
    (vs : List Value) (r : List Cell) :
    r ∈ (applyFilter isExclude t c vs).rows ↔
      r ∈ t.rows ∧ rowPass isExclude t.cols c vs r := by
  unfold applyFilter rowPass
  by_cases h : vs ≠ [] ∧ c ∈ t.cols
  · rw [if_pos h]
    simp only [List.mem_filter]
    constructor
    · rintro ⟨hr, hb⟩
      refine ⟨hr, fun _ _ => ?_⟩
      cases isExclude with
      | false =>
        simpa using (cellIsIn_iff (getCell t.cols r c) vs).1 (by simpa using hb)
      | true =>
        simp only [if_true, Bool.not_eq_true'] at hb ⊢
        intro hmem
        exact absurd ((cellIsIn_iff _ _).2 hmem) (by simp [hb])
    · rintro ⟨hr, hp⟩
      refine ⟨hr, ?_⟩
      have hp' := hp h.1 h.2
      cases isExclude with
      | false => simpa using (cellIsIn_iff (getCell t.cols r c) vs).2 (by simpa using hp')
      | true =>
        simp only [if_true] at hp' ⊢
        simp only [Bool.not_eq_true']
        cases hb : cellIsIn (getCell t.cols r c) vs with
        | false => rfl
        | true => exact absurd ((cellIsIn_iff _ _).1 hb) (by simpa using hp')
  · rw [if_neg h]
    push_neg at h
    constructor
    · intro hr
      refine ⟨hr, fun hvs hc => ?_⟩
      exact absurd hc (h hvs)
    · exact fun hp => hp.1

theorem filtered_df_cols (isExclude : Bool) (t : Table) (spec : FilterSpec) :
    (filtered_df isExclude t spec).cols = t.cols := by
  induction spec generalizing t with
  | nil => rfl
  | cons p rest ih =>
    show (filtered_df isExclude (applyFilter isExclude t p.1 p.2) rest).cols = t.cols
    rw [ih, applyFilter_cols]

theorem mem_filtered_df (isExclude : Bool) (t : Table) (spec : FilterSpec)
    (r : List Cell) :
    r ∈ (filtered_df isExclude t spec).rows ↔
      r ∈ t.rows ∧ ∀ p ∈ spec, rowPass isExclude t.cols p.1 p.2 r := by
  induction spec generalizing t with
  | nil => simp [filtered_df]
  | cons p rest ih =>
    show r ∈ (filtered_df isExclude (applyFilter isExclude t p.1 p.2) rest).rows ↔ _
    rw [ih, mem_applyFilter, applyFilter_cols]
    constructor
    · rintro ⟨⟨hr, hp⟩, hrest⟩
      exact ⟨hr, by
        intro q hq
        rcases List.mem_cons.1 hq with h | h
        · exact h ▸ hp
        · exact hrest q h⟩
    · rintro ⟨hr, hall⟩
      exact ⟨⟨hr, hall p (by simp)⟩, fun q hq => hall q (List.mem_cons_of_mem _ hq)⟩

/-- The sheet store: `st.session_state.dataframes`, an insertion-ordered
mapping from sheet name to its dataframe. -/
abbrev Store := List (String × Table)

/-- `df[filter_col].dropna().unique()` as a finset: the distinct non-null
values of column `c` in `t`, guarded by `if filter_col in df.columns`
(filter.py line 128). -/
def sheetValues (store : Store) (s : String) (c : String) : Finset Value :=
  match store.lookup s with
  | some t =>
      if c ∈ t.cols then
        (t.rows.filterMap (fun r => getCell t.cols r c)).toFinset
      else ∅
  | none => ∅

/-- `unique_values` (filter.py lines 125-129): the running set union of
each selected sheet's distinct non-null values in column `c`. -/
def unique_values (store : Store) (sheets : List String) (c : String) :
    Finset Value :=
  sheets.foldl (fun acc s => acc ∪ sheetValues store s c) ∅

/-- `sorted(list(unique_values))` (filter.py line 132). -/
def unique_values_sorted (store : Store) (sheets : List String) (c : String) :
    List Value :=
  (unique_values store sheets c).sort (· ≤ ·)

theorem unique_values_aux (store : Store) (sheets : List String) (c : String)
    (acc : Finset Value) :
    sheets.foldl (fun acc s => acc ∪ sheetValues store s c) acc =
      acc ∪ sheets.foldl (fun acc s => acc ∪ sheetValues store s c) ∅ := by
  induction sheets generalizing acc with
  | nil => simp
  | cons s rest ih =>
    show List.foldl _ (acc ∪ sheetValues store s c) rest = _
    rw [ih, List.foldl_cons, ih (∅ ∪ sheetValues store s c)]
    simp [Finset.union_assoc]

theorem mem_unique_values (store : Store) (sheets : List String) (c : String)
    (v : Value) :
    v ∈ unique_values store sheets c ↔
      ∃ s ∈ sheets, v ∈ sheetValues store s c := by
  induction sheets with
  | nil => simp [unique_values]
  | cons s rest ih =>
    unfold unique_values
    show v ∈ List.foldl _ (∅ ∪ sheetValues store s c) rest ↔ _
    rw [unique_values_aux]
    simp only [Finset.mem_union, Finset.empty_union]
    rw [show List.foldl (fun acc s => acc ∪ sheetValues store s c) ∅ rest =
          unique_values store rest c from rfl]
    rw [ih]
    simp only [List.mem_cons]
    constructor
    · rintro (h | ⟨t, ht, hv⟩)
      · exact ⟨s, Or.inl rfl, h⟩
      · exact ⟨t, Or.inr ht, hv⟩
    · rintro ⟨t, h | ht, hv⟩
      · exact Or.inl (h ▸ hv)
      · exact Or.inr ⟨t, ht, hv⟩

/-- The fixed list of eight expected sheet names (filter.py lines 34-43). -/
def expected_sheets : List String :=
  ["Region", "Issuer", "Merchant", "Acquirer", "Issuer-Merchant",
   "Issuer-Acquirer", "Acquirer-Merchant", "Issuer-Acquirer-Merchant"]

/-- Result of the sheet-loading loop: the populated store plus the list of
missing sheet names, each of which the script reports in one
`st.warning` naming that sheet (filter.py line 53). -/
structure LoadResult where
  dataframes : Store
  warnings : List String
deriving DecidableEq, Repr

/-- The loading loop (filter.py lines 49-53): for each expected sheet
present in the workbook, read it into the store; for each absent one,
emit a warning naming it and continue. -/
def loadSheets (workbook : Store) : LoadResult :=
  expected_sheets.foldl
    (fun acc s =>
      match workbook.lookup s with
      | some t => { acc with dataframes := acc.dataframes ++ [(s, t)] }
      | none => { acc with warnings := acc.warnings ++ [s] })
    { dataframes := [], warnings := [] }

/-- The `else: st.error("No valid sheets found...")` branch condition
(filter.py lines 55 and 188): fatal iff the store is empty. -/
def noValidSheetsError (r : LoadResult) : Bool :=
  r.dataframes.isEmpty

theorem loadSheets_aux (workbook : Store) (l : List String) (acc : LoadResult) :
    l.foldl
      (fun acc s =>
        match workbook.lookup s with
        | some t => { acc with dataframes := acc.dataframes ++ [(s, t)] }
        | none => { acc with warnings := acc.warnings ++ [s] })
      acc =
      { dataframes :=
          acc.dataframes ++
            l.filterMap (fun s => (workbook.lookup s).map (fun t => (s, t))),
        warnings :=
          acc.warnings ++ l.filter (fun s => (workbook.lookup s).isNone) } := by
  induction l generalizing acc with
  | nil => simp
  | cons s rest ih =>
    show List.foldl _ _ rest = _
    cases h : workbook.lookup s with
    | some t =>
      simp only [h]
      rw [ih]
      simp [h, List.filterMap_cons, List.filter_cons]
    | none =>
      simp only [h]
      rw [ih]
      simp [h, List.filterMap_cons, List.filter_cons]

theorem loadSheets_eq (workbook : Store) :
    loadSheets workbook =
      { dataframes :=
          expected_sheets.filterMap
            (fun s => (workbook.lookup s).map (fun t => (s, t))),
        warnings :=
          expected_sheets.filter (fun s => (workbook.lookup s).isNone) } := by
  unfold loadSheets
  rw [loadSheets_aux]
  simp

/-- A user interaction step of the streamlit rerun model: any change to
the sheet selection or filter spec triggers a rerun of the script, and
the Reset All button deletes the store before rerunning. -/
inductive Event
  | interact
  | reset
deriving DecidableEq, Repr

/-- One session: the optional parsed store plus a count of how many times
the workbook has been parsed. -/
structure Session where
  dataframes : Option Store
  parseCount : Nat
deriving DecidableEq, Repr

/-- One top-to-bottom run of the script's loading section (filter.py
lines 46-53): parse only `if 'dataframes' not in st.session_state`. -/
def runScript (workbook : Store) (s : Session) : Session :=
  match s.dataframes with
  | none =>
      { dataframes := some (loadSheets workbook).dataframes,
        parseCount := s.parseCount + 1 }
  | some _ => s

/-- Session transition: an interaction reruns the script; Reset All
(filter.py lines 256-259) deletes `st.session_state.dataframes` and
requests a rerun, which is the next `interact` event and re-parses the
still-uploaded file. -/
def step (workbook : Store) (s : Session) : Event → Session
  | .interact => runScript workbook s
  | .reset => { s with dataframes := none }

/-- The per-sheet display loop (filter.py lines 145-157), threading the
session store explicitly: each iteration looks the sheet up in the store
and computes its filtered view as a fresh table; sheets missing from the
store contribute nothing.  The first component is the store as left by
the loop. -/
def displayLoop (isExclude : Bool) (spec : FilterSpec)
    (selected : List String) (store : Store) :
    Store × List (String × Table) :=
  selected.foldl
    (fun acc s =>
      match acc.1.lookup s with
      | some df => (acc.1, acc.2 ++ [(s, filtered_df isExclude df spec)])
      | none => acc)
    (store, [])

theorem displayLoop_aux (isExclude : Bool) (spec : FilterSpec)
    (selected : List String) (store : Store) (views : List (String × Table)) :
    selected.foldl
      (fun acc s =>
        match acc.1.lookup s with
        | some df => (acc.1, acc.2 ++ [(s, filtered_df isExclude df spec)])
        | none => acc)
      (store, views) =
      (store,
       views ++
         selected.filterMap
           (fun s =>
             (store.lookup s).map
               (fun df => (s, filtered_df isExclude df spec)))) := by
  induction selected generalizing views with
  | nil => simp
  | cons s rest ih =>
    show List.foldl _ _ rest = _
    cases h : store.lookup s with
    | some df =>
      simp only [h]
      rw [ih]
      simp [h, List.filterMap_cons]
    | none =>
      simp only [h]
      rw [ih]
      simp [h, List.filterMap_cons]

theorem displayLoop_eq (isExclude : Bool) (spec : FilterSpec)
    (selected : List String) (store : Store) :
    displayLoop isExclude spec selected store =
      (store,
       selected.filterMap
         (fun s =>
           (store.lookup s).map
             (fun df => (s, filtered_df isExclude df spec)))) := by
  unfold displayLoop
  rw [displayLoop_aux]
  simp

theorem applyFilter_of_pass (isExclude : Bool) (t : Table) (c : String)
    (vs : List Value) (h : ∀ r ∈ t.rows, rowPass isExclude t.cols c vs r) :
    applyFilter isExclude t c vs = t := by
  unfold applyFilter
  by_cases hc : vs ≠ [] ∧ c ∈ t.cols
  · rw [if_pos hc]
    have hfilter : t.rows.filter (fun r =>
        if isExclude then !(cellIsIn (getCell t.cols r c) vs)
        else cellIsIn (getCell t.cols r c) vs) = t.rows := by
      apply List.filter_eq_self.2
      intro r hr
      have hp := h r hr hc.1 hc.2
      cases isExclude with
      | false =>
        simpa using (cellIsIn_iff (getCell t.cols r c) vs).2 (by simpa using hp)
      | true =>
        simp only [if_true] at hp ⊢
        simp only [Bool.not_eq_true']
        cases hb : cellIsIn (getCell t.cols r c) vs with
        | false => rfl
        | true => exact absurd ((cellIsIn_iff _ _).1 hb) (by simpa using hp)
    rw [hfilter]
  · rw [if_neg hc]

theorem filtered_df_of_all_pass (isExclude : Bool) (t : Table)
    (spec : FilterSpec)
    (h : ∀ r ∈ t.rows, ∀ p ∈ spec, rowPass isExclude t.cols p.1 p.2 r) :
    filtered_df isExclude t spec = t := by
  induction spec generalizing t with
  | nil => rfl
  | cons p rest ih =>
    show filtered_df isExclude (applyFilter isExclude t p.1 p.2) rest = t
    rw [applyFilter_of_pass isExclude t p.1 p.2 (fun r hr => h r hr p (by simp))]
    exact ih t (fun r hr q hq => h r hr q (List.mem_cons_of_mem _ hq))

theorem applyFilter_rows_sublist (isExclude : Bool) (t : Table) (c : String)
    (vs : List Value) : (applyFilter isExclude t c vs).rows.Sublist t.rows := by
  unfold applyFilter
  by_cases hc : vs ≠ [] ∧ c ∈ t.cols
  · rw [if_pos hc]
    exact List.filter_sublist _
  · rw [if_neg hc]

/-- The example "Issuer" sheet from the spec's scenario: one filter column
with values US, US, FR and one null cell. -/
def tIssuer : Table :=
  { cols := ["Issuer country"],
    rows := [[some "US"], [some "US"], [some "FR"], [none]] }

/-- C1: on a single active filter column, include mode keeps exactly the
rows whose cell is a member of the selection, exclude mode keeps exactly
the rows whose cell is not a member, and a null cell is never a member
(hence dropped under include, kept under exclude). -/
theorem single_column_include_exclude (t : Table) (c : String)
    (vs : List Value) (hc : c ∈ t.cols) (hv : vs ≠ []) :
    (∀ r, r ∈ (filtered_df false t [(c, vs)]).rows ↔
        r ∈ t.rows ∧ memVal (getCell t.cols r c) vs)
    ∧ (∀ r, r ∈ (filtered_df true t [(c, vs)]).rows ↔
        r ∈ t.rows ∧ ¬ memVal (getCell t.cols r c) vs)
    ∧ (∀ r, getCell t.cols r c = none → ¬ memVal (getCell t.cols r c) vs) := by
  refine ⟨fun r => ?_, fun r => ?_, fun r hnull => ?_⟩
  · rw [mem_filtered_df]
    constructor
    · rintro ⟨hr, hall⟩
      have hp := hall (c, vs) (by simp) hv hc
      exact ⟨hr, by simpa using hp⟩
    · rintro ⟨hr, hm⟩
      refine ⟨hr, fun p hp => ?_⟩
      rcases List.mem_singleton.1 hp with rfl
      intro _ _
      simpa using hm
  · rw [mem_filtered_df]
    constructor
    · rintro ⟨hr, hall⟩
      have hp := hall (c, vs) (by simp) hv hc
      exact ⟨hr, by simpa using hp⟩
    · rintro ⟨hr, hm⟩
      refine ⟨hr, fun p hp => ?_⟩
      rcases List.mem_singleton.1 hp with rfl
      intro _ _
      simpa using hm
  · rintro ⟨v, hev, _⟩
    rw [hnull] at hev
    exact Option.noConfusion hev

theorem single_column_include_exclude_witness :
    ("Issuer country" ∈ tIssuer.cols ∧ (["US"] : List Value) ≠ [])
    ∧ ((∀ r, r ∈ (filtered_df false tIssuer
            [("Issuer country", ["US"])]).rows ↔
          r ∈ tIssuer.rows ∧
            memVal (getCell tIssuer.cols r "Issuer country") ["US"])
       ∧ (∀ r, r ∈ (filtered_df true tIssuer
              [("Issuer country", ["US"])]).rows ↔
            r ∈ tIssuer.rows ∧
              ¬ memVal (getCell tIssuer.cols r "Issuer country") ["US"])
       ∧ (∀ r, getCell tIssuer.cols r "Issuer country" = none →
            ¬ memVal (getCell tIssuer.cols r "Issuer country") ["US"])) :=
  ⟨⟨by decide, by decide⟩,
   single_column_include_exclude tIssuer "Issuer country" ["US"]
     (by decide) (by decide)⟩

/-- C2: a filter spec whose every selected-value set is empty leaves the
table unchanged, in either mode. -/
theorem empty_selection_identity (isExclude : Bool) (t : Table)
    (spec : FilterSpec) (h : ∀ p ∈ spec, p.2 = ([] : List Value)) :
    filtered_df isExclude t spec = t := by
  induction spec generalizing t with
  | nil => rfl
  | cons p rest ih =>
    show filtered_df isExclude (applyFilter isExclude t p.1 p.2) rest = t
    have hp : p.2 = [] := h p (by simp)
    have happ : applyFilter isExclude t p.1 p.2 = t := by
      unfold applyFilter
      rw [if_neg (by simp [hp])]
    rw [happ]
    exact ih t (fun q hq => h q (List.mem_cons_of_mem _ hq))

theorem empty_selection_identity_witness :
    (∀ p ∈ ([("Issuer country", []), ("Merchant", [])] : FilterSpec),
        p.2 = ([] : List Value))
    ∧ filtered_df true tIssuer
        [("Issuer country", []), ("Merchant", [])] = tIssuer :=
  ⟨by decide,
   empty_selection_identity true tIssuer
     [("Issuer country", []), ("Merchant", [])] (by decide)⟩

/-- C4: a row survives the whole filter spec iff it satisfies every
active column's predicate (logical AND), and permuting the order of the
per-column filters leaves the surviving row set unchanged. -/
theorem conjunctive_order_independent (isExclude : Bool) (t : Table)
    (spec spec' : FilterSpec) (hperm : spec.Perm spec') :
    (∀ r, r ∈ (filtered_df isExclude t spec).rows ↔
        r ∈ t.rows ∧ ∀ p ∈ spec, rowPass isExclude t.cols p.1 p.2 r)
    ∧ (∀ r, r ∈ (filtered_df isExclude t spec).rows ↔
        r ∈ (filtered_df isExclude t spec').rows) := by
  refine ⟨fun r => mem_filtered_df isExclude t spec r, fun r => ?_⟩
  rw [mem_filtered_df, mem_filtered_df]
  constructor
  · rintro ⟨hr, hall⟩
    exact ⟨hr, fun p hp => hall p (hperm.mem_iff.2 hp)⟩
  · rintro ⟨hr, hall⟩
    exact ⟨hr, fun p hp => hall p (hperm.mem_iff.1 hp)⟩

theorem conjunctive_order_independent_witness :
    (([("Issuer country", ["US"]), ("Merchant", ["M1"])] : FilterSpec).Perm
        [("Merchant", ["M1"]), ("Issuer country", ["US"])])
    ∧ ((∀ r, r ∈ (filtered_df false tIssuer
            [("Issuer country", ["US"]), ("Merchant", ["M1"])]).rows ↔
          r ∈ tIssuer.rows ∧
            ∀ p ∈ ([("Issuer country", ["US"]), ("Merchant", ["M1"])] :
                FilterSpec),
              rowPass false tIssuer.cols p.1 p.2 r)
       ∧ (∀ r, r ∈ (filtered_df false tIssuer
              [("Issuer country", ["US"]), ("Merchant", ["M1"])]).rows ↔
            r ∈ (filtered_df false tIssuer
              [("Merchant", ["M1"]), ("Issuer country", ["US"])]).rows)) :=
  ⟨List.Perm.swap _ _ _,
   conjunctive_order_independent false tIssuer
     [("Issuer country", ["US"]), ("Merchant", ["M1"])]
     [("Merchant", ["M1"]), ("Issuer country", ["US"])]
     (List.Perm.swap _ _ _)⟩

/-- C5: filtering is idempotent: running the same filter spec over an
already-filtered table changes nothing. -/
theorem filtering_idempotent (isExclude : Bool) (t : Table)
    (spec : FilterSpec) :
    filtered_df isExclude (filtered_df isExclude t spec) spec =
      filtered_df isExclude t spec := by
  apply filtered_df_of_all_pass
  intro r hr p hp
  rw [filtered_df_cols]
  exact ((mem_filtered_df isExclude t spec r).1 hr).2 p hp

/-- C6: filtering is stable: the output rows form a subsequence of the
input rows, in the original order. -/
theorem filtering_stable (isExclude : Bool) (t : Table) (spec : FilterSpec) :
    (filtered_df isExclude t spec).rows.Sublist t.rows := by
  induction spec generalizing t with
  | nil => exact List.Sublist.refl _
  | cons p rest ih =>
    show (filtered_df isExclude (applyFilter isExclude t p.1 p.2) rest).rows.Sublist
      t.rows
    exact (ih _).trans (applyFilter_rows_sublist isExclude t p.1 p.2)

theorem length_filter_add_length_filter_not {α : Type} (l : List α)
    (p : α → Bool) :
    (l.filter p).length + (l.filter (fun a => !(p a))).length = l.length := by
  induction l with
  | nil => rfl
  | cons a l ih =>
    cases h : p a <;> simp [List.filter_cons, h] <;> omega

/-- C10: on a single active filter column, the include-mode result and
the exclude-mode result partition the table: row counts sum to the
original count, and every row lands in exactly one of the two. -/
theorem include_exclude_partition (t : Table) (c : String) (vs : List Value)
    (hc : c ∈ t.cols) (hv : vs ≠ []) :
    ((filtered_df false t [(c, vs)]).rows.length +
        (filtered_df true t [(c, vs)]).rows.length = t.rows.length)
    ∧ ∀ r ∈ t.rows,
        (r ∈ (filtered_df false t [(c, vs)]).rows ∧
            r ∉ (filtered_df true t [(c, vs)]).rows) ∨
        (r ∉ (filtered_df false t [(c, vs)]).rows ∧
            r ∈ (filtered_df true t [(c, vs)]).rows) := by
  have hif : (filtered_df false t [(c, vs)]).rows =
      t.rows.filter (fun r => cellIsIn (getCell t.cols r c) vs) := by
    show (applyFilter false t c vs).rows = _
    unfold applyFilter
    rw [if_pos ⟨hv, hc⟩]
    simp
  have hef : (filtered_df true t [(c, vs)]).rows =
      t.rows.filter (fun r => !(cellIsIn (getCell t.cols r c) vs)) := by
    show (applyFilter true t c vs).rows = _
    unfold applyFilter
    rw [if_pos ⟨hv, hc⟩]
    simp
  refine ⟨?_, fun r hr => ?_⟩
  · rw [hif, hef]
    exact length_filter_add_length_filter_not t.rows _
  · rw [hif, hef]
    by_cases hb : cellIsIn (getCell t.cols r c) vs = true
    · left
      refine ⟨List.mem_filter.2 ⟨hr, hb⟩, fun hcontra => ?_⟩
      have hx := (List.mem_filter.1 hcontra).2
      rw [hb] at hx
      simp at hx
    · right
      rw [Bool.not_eq_true] at hb
      refine ⟨fun hcontra => ?_, List.mem_filter.2 ⟨hr, by simp [hb]⟩⟩
      have hx := (List.mem_filter.1 hcontra).2
      rw [hb] at hx
      simp at hx

theorem include_exclude_partition_witness :
    ("Issuer country" ∈ tIssuer.cols ∧ (["US"] : List Value) ≠ [])
    ∧ (((filtered_df false tIssuer [("Issuer country", ["US"])]).rows.length +
          (filtered_df true tIssuer
            [("Issuer country", ["US"])]).rows.length = tIssuer.rows.length)
       ∧ ∀ r ∈ tIssuer.rows,
           (r ∈ (filtered_df false tIssuer
                [("Issuer country", ["US"])]).rows ∧
               r ∉ (filtered_df true tIssuer
                [("Issuer country", ["US"])]).rows) ∨
           (r ∉ (filtered_df false tIssuer
                [("Issuer country", ["US"])]).rows ∧
               r ∈ (filtered_df true tIssuer
                [("Issuer country", ["US"])]).rows)) :=
  ⟨⟨by decide, by decide⟩,
   include_exclude_partition tIssuer "Issuer country" ["US"]
     (by decide) (by decide)⟩

theorem mem_sheetValues (store : Store) (s c : String) (v : Value) :
    v ∈ sheetValues store s c ↔
      ∃ t, store.lookup s = some t ∧ c ∈ t.cols ∧
        ∃ r ∈ t.rows, getCell t.cols r c = some v := by
  unfold sheetValues
  cases h : store.lookup s with
  | none => simp
  | some t =>
    by_cases hc : c ∈ t.cols
    · simp [hc, List.mem_filterMap]
    · simp [hc]

/-- C3: the candidate values collected for a filter column are exactly the
union, over the selected sheets whose table contains the column, of that
table's distinct non-null values in the column; the result depends only on
the set of selected sheets, and the offered list is sorted ascending with
no duplicates. -/
theorem collected_values_union_sorted (store : Store) (sheets : List String)
    (c : String) :
    (∀ v, v ∈ unique_values store sheets c ↔
        ∃ s ∈ sheets, ∃ t, store.lookup s = some t ∧ c ∈ t.cols ∧
          ∃ r ∈ t.rows, getCell t.cols r c = some v)
    ∧ (∀ sheets' : List String, (∀ s, s ∈ sheets ↔ s ∈ sheets') →
        unique_values store sheets c = unique_values store sheets' c)
    ∧ List.Sorted (· ≤ ·) (unique_values_sorted store sheets c)
    ∧ (unique_values_sorted store sheets c).Nodup := by
  refine ⟨fun v => ?_, fun sheets' hset => ?_, ?_, ?_⟩
  · rw [mem_unique_values]
    constructor
    · rintro ⟨s, hs, hv⟩
      exact ⟨s, hs, (mem_sheetValues store s c v).1 hv⟩
    · rintro ⟨s, hs, hv⟩
      exact ⟨s, hs, (mem_sheetValues store s c v).2 hv⟩
  · apply Finset.ext
    intro v
    rw [mem_unique_values, mem_unique_values]
    constructor
    · rintro ⟨s, hs, hv⟩
      exact ⟨s, (hset s).1 hs, hv⟩
    · rintro ⟨s, hs, hv⟩
      exact ⟨s, (hset s).2 hs, hv⟩
  · exact Finset.sort_sorted _ _
  · exact Finset.sort_nodup _ _

/-- A two-sheet store for witnesses: the "Issuer" sheet above plus a
"Region" sheet sharing the filter column. -/
def storeTwo : Store :=
  [("Issuer", tIssuer),
   ("Region", { cols := ["Issuer country"], rows := [[some "DE"], [some "FR"]] })]

theorem collected_values_union_sorted_witness :
    ("US" ∈ unique_values storeTwo ["Issuer", "Region"] "Issuer country" ↔
      ∃ s ∈ ["Issuer", "Region"], ∃ t, storeTwo.lookup s = some t ∧
        "Issuer country" ∈ t.cols ∧
        ∃ r ∈ t.rows, getCell t.cols r "Issuer country" = some "US")
    ∧ unique_values storeTwo ["Issuer", "Region"] "Issuer country" =
        unique_values storeTwo ["Region", "Issuer", "Issuer"] "Issuer country"
    ∧ List.Sorted (· ≤ ·)
        (unique_values_sorted storeTwo ["Issuer", "Region"] "Issuer country") :=
  ⟨(collected_values_union_sorted storeTwo ["Issuer", "Region"]
      "Issuer country").1 "US",
   (collected_values_union_sorted storeTwo ["Issuer", "Region"]
      "Issuer country").2.1 ["Region", "Issuer", "Issuer"]
     (by intro s; simp [List.mem_cons]; tauto),
   (collected_values_union_sorted storeTwo ["Issuer", "Region"]
      "Issuer country").2.2.1⟩

/-- C7: against the fixed list of 8 expected sheet names, each expected
sheet absent from the workbook is reported in exactly one warning naming
it while the present sheets still load, and the fatal "no valid sheets"
error fires exactly when none of the expected sheets is present. -/
theorem missing_sheets_warned (workbook : Store) :
    expected_sheets.length = 8
    ∧ (∀ s, s ∈ (loadSheets workbook).warnings ↔
        s ∈ expected_sheets ∧ workbook.lookup s = none)
    ∧ (∀ s ∈ expected_sheets, workbook.lookup s = none →
        (loadSheets workbook).warnings.count s = 1)
    ∧ ((loadSheets workbook).dataframes =
        expected_sheets.filterMap
          (fun s => (workbook.lookup s).map (fun t => (s, t))))
    ∧ (noValidSheetsError (loadSheets workbook) = true ↔
        ∀ s ∈ expected_sheets, workbook.lookup s = none) := by
  have hnodup : expected_sheets.Nodup := by decide
  have hw : (loadSheets workbook).warnings =
      expected_sheets.filter (fun s => (workbook.lookup s).isNone) := by
    rw [loadSheets_eq]
  have hd : (loadSheets workbook).dataframes =
      expected_sheets.filterMap
        (fun s => (workbook.lookup s).map (fun t => (s, t))) := by
    rw [loadSheets_eq]
  refine ⟨rfl, fun s => ?_, fun s hs hnone => ?_, hd, ?_⟩
  · rw [hw, List.mem_filter]
    simp [Option.isNone_iff_eq_none]
  · rw [hw]
    apply List.count_eq_one_of_mem (hnodup.filter _)
    rw [List.mem_filter]
    exact ⟨hs, by simp [hnone]⟩
  · unfold noValidSheetsError
    rw [hd]
    simp [List.filterMap_eq_nil_iff, Option.map_eq_none', List.isEmpty_iff,
      Option.isNone_iff_eq_none]

/-- A workbook holding seven of the eight expected sheets, missing
"Acquirer". -/
def wb7 : Store :=
  [("Region", tIssuer), ("Issuer", tIssuer), ("Merchant", tIssuer),
   ("Issuer-Merchant", tIssuer), ("Issuer-Acquirer", tIssuer),
   ("Acquirer-Merchant", tIssuer), ("Issuer-Acquirer-Merchant", tIssuer)]

theorem missing_sheets_warned_witness :
    ("Acquirer" ∈ expected_sheets ∧ wb7.lookup "Acquirer" = none)
    ∧ (loadSheets wb7).warnings.count "Acquirer" = 1
    ∧ (loadSheets wb7).dataframes.length = 7
    ∧ (loadSheets wb7).warnings = ["Acquirer"]
    ∧ noValidSheetsError (loadSheets wb7) = false :=
  ⟨⟨by decide, by decide⟩,
   (missing_sheets_warned wb7).2.2.1 "Acquirer" (by decide) (by decide),
   by decide, by decide, by decide⟩

/-- C8: once the session store is populated, any sequence of filter or
selection interactions leaves the session (store and parse count) exactly
as it was — the workbook is never re-parsed; the Reset All event is what
clears the store; and starting from a fresh session, any positive number
of interactions parses the workbook exactly once. -/
theorem sheet_store_parse_once (workbook : Store) (s : Session)
    (h : s.dataframes.isSome = true) :
    (∀ evs : List Event, (∀ e ∈ evs, e = Event.interact) →
        evs.foldl (step workbook) s = s)
    ∧ (step workbook s Event.reset).dataframes = none
    ∧ (∀ n : Nat,
        Nat.iterate (fun s => step workbook s Event.interact) (n + 1)
            { dataframes := none, parseCount := 0 } =
          { dataframes := some (loadSheets workbook).dataframes,
            parseCount := 1 }) := by
  have hfix : ∀ s' : Session, s'.dataframes.isSome = true →
      step workbook s' Event.interact = s' := by
    intro s' h'
    cases hd : s'.dataframes with
    | none => rw [hd] at h'; simp at h'
    | some d => simp [step, runScript, hd]
  refine ⟨fun evs => ?_, rfl, fun n => ?_⟩
  · induction evs with
    | nil => intro _; rfl
    | cons e rest ih =>
      intro hev
      rw [List.foldl_cons]
      have he : e = Event.interact := hev e (by simp)
      rw [he, hfix s h]
      exact ih (fun e' he' => hev e' (List.mem_cons_of_mem _ he'))
  · induction n with
    | zero => rfl
    | succ n ih =>
      rw [Function.iterate_succ_apply', ih]
      exact hfix _ rfl

theorem sheet_store_parse_once_witness :
    ((Session.mk (some [("Region", tIssuer)]) 1).dataframes.isSome = true)
    ∧ ((∀ evs : List Event, (∀ e ∈ evs, e = Event.interact) →
          evs.foldl (step [("Region", tIssuer)])
              (Session.mk (some [("Region", tIssuer)]) 1) =
            Session.mk (some [("Region", tIssuer)]) 1)
       ∧ (step [("Region", tIssuer)]
            (Session.mk (some [("Region", tIssuer)]) 1)
            Event.reset).dataframes = none
       ∧ (∀ n : Nat,
           Nat.iterate
               (fun s => step [("Region", tIssuer)] s Event.interact) (n + 1)
               { dataframes := none, parseCount := 0 } =
             { dataframes :=
                 some (loadSheets [("Region", tIssuer)]).dataframes,
               parseCount := 1 })) :=
  ⟨rfl,
   sheet_store_parse_once [("Region", tIssuer)]
     (Session.mk (some [("Region", tIssuer)]) 1) rfl⟩

/-- C9: computing the filtered views mutates nothing: the display loop
hands back the sheet store exactly as it received it, and every view is a
fresh table derived by `filtered_df` from the stored source table. -/
theorem display_leaves_store_unchanged (isExclude : Bool) (spec : FilterSpec)
    (selected : List String) (store : Store) :
    (displayLoop isExclude spec selected store).1 = store
    ∧ (displayLoop isExclude spec selected store).2 =
        selected.filterMap
          (fun s => (store.lookup s).map
            (fun df => (s, filtered_df isExclude df spec))) := by
  rw [displayLoop_eq]
  exact ⟨rfl, rfl⟩

end ExcelViewer
